import Mathlib

/-!
Shallow embedding of `src/uart_comm/main/uart_comm.c`: the CRC engine
(`calc_crc8`), the frame validator (`handle_packet`) and the per-read
dispatch step of `app_main` (`session_step`).  Bytes are modelled as `Nat`
with explicit `% 256` wherever the C `uint8_t` type truncates.  A memory
read outside the underlying allocation is modelled as `none`.
-/

set_option maxRecDepth 10000

/-- Wire constant `HEADER` (0xAA) from the source. -/
def HEADER : Nat := 0xAA

/-- Wire constant `END` (0xBB) from the source. -/
def END : Nat := 0xBB

/-- Wire constant `HANDSHAKE_REQ` (0xB1) from the source. -/
def HANDSHAKE_REQ : Nat := 0xB1

/-- Wire constant `HANDSHAKE_RESP` (0x55) from the source. -/
def HANDSHAKE_RESP : Nat := 0x55

/-- Wire constant `ACK` (0x06) from the source. -/
def ACK : Nat := 0x06

/-- Wire constant `NACK` (0x15) from the source. -/
def NACK : Nat := 0x15

/-- Buffer size `BUF_SIZE` (1024) of the receive buffer in `app_main`. -/
def BUF_SIZE : Nat := 1024

/-- One iteration of the inner bit loop of `calc_crc8`:
`if (crc & 0x80) crc = (crc << 1) ^ 0x07; else crc <<= 1;` with the
assignment back to the `uint8_t` variable truncating modulo 256. -/
def crc8_round (crc : Nat) : Nat :=
  if crc &&& 0x80 ≠ 0 then ((crc <<< 1) ^^^ 0x07) % 256 else (crc <<< 1) % 256

/-- The inner `for (j = 0; j < 8; j++)` loop of `calc_crc8`, as an
iteration counter. -/
def crc8_rounds : Nat → Nat → Nat
  | 0, crc => crc
  | j + 1, crc => crc8_rounds j (crc8_round crc)

/-- The body of the outer loop of `calc_crc8`: `crc ^= data[i];` followed
by the eight bit rounds. -/
def crc8_update (crc b : Nat) : Nat := crc8_rounds 8 (crc ^^^ b)

/-- Function `calc_crc8(data, len)` from the source: CRC-8 with
polynomial 0x07, accumulator initialised to 0, over the whole byte
list. -/
def calc_crc8 (data : List Nat) : Nat := data.foldl crc8_update 0

/-- Log events emitted by `handle_packet` (its `ESP_LOGW`/`ESP_LOGI`
calls), recording exactly the data the format strings carry. -/
inductive Event where
  | lengthMismatch (declared received : Nat) : Event
  | validPacket (payload : List Nat) : Event
  | crcMismatch (got expected : Nat) : Event
deriving DecidableEq

/-- The C expression `uint8_t payload_len = total_len - 4;`: unsigned
8-bit subtraction, wrapping modulo 256. -/
def payload_len_of (total_len : Nat) : Nat := (total_len + 252) % 256

/-- The payload view `&data[2]` with length `payload_len`, as the slice
starting at index 2. -/
def packet_payload (data : List Nat) (total_len : Nat) : List Nat :=
  (data.drop 2).take (payload_len_of total_len)

/-- Shallow embedding of `handle_packet(data, len)`.  `data` is the
underlying allocation the pointer gives access to and `len` the byte
count of the read; every memory access goes through `List.get?`, so a
read outside the allocation yields `none` (undefined behaviour).  The
result is the single response byte passed to `send_byte`, paired with the
log events of the call. -/
def handle_packet (data : List Nat) (len : Nat) : Option (Nat × List Event) :=
  match data.get? 0, data.get? (len - 1) with
  | some b0, some bLast =>
    if b0 ≠ HEADER ∨ bLast ≠ END then some (NACK, [])
    else
      match data.get? 1 with
      | some total_len =>
        if len ≠ total_len then some (NACK, [Event.lengthMismatch total_len len])
        else
          match data.get? (2 + payload_len_of total_len) with
          | some crc_received =>
            if crc_received = calc_crc8 (packet_payload data total_len) then
              some (ACK, [Event.validPacket (packet_payload data total_len)])
            else
              some (NACK, [Event.crcMismatch crc_received
                (calc_crc8 (packet_payload data total_len))])
          | none => none
      | none => none
  | _, _ => none

/-- The Frame Validator of the spec: `handle_packet` applied to exactly
the received span (allocation and read length coincide). -/
def validate (span : List Nat) : Option (Nat × List Event) :=
  handle_packet span span.length

/-- One Dispatching step of the `app_main` loop on a non-empty read of
`len` bytes into `buffer`: the handshake test
`len == 1 && buffer[0] == HANDSHAKE_REQ` first, otherwise
`handle_packet`.  The result pairs the list of response bytes written
with the validator's log events. -/
def session_step (buffer : List Nat) (len : Nat) : Option (List Nat × List Event) :=
  if len = 1 ∧ buffer.get? 0 = some HANDSHAKE_REQ then some ([HANDSHAKE_RESP], [])
  else (handle_packet buffer len).map (fun r => ([r.fst], r.snd))

/-- Packet construction from the spec:
`[0xAA, 4+len(p), p..., compute_crc8(p), 0xBB]`. -/
def mkPacket (p : List Nat) : List Nat :=
  HEADER :: (4 + p.length) :: (p ++ [calc_crc8 p, END])

/-- Modelled from the spec, one bit iteration of the reference CRC-8/0x07
algorithm: if the high bit of the accumulator is set, shift left by one
(truncating to 8 bits) and XOR with the polynomial 0x07, else just shift
left by one with the same truncation. -/
def spec_crc8_step (acc : Nat) : Nat :=
  if Nat.testBit acc 7 then ((acc * 2) % 256) ^^^ 0x07 else (acc * 2) % 256

/-- Modelled from the spec, one byte of the reference algorithm: XOR the
input byte into the accumulator, then eight bit iterations. -/
def spec_crc8_byte (acc b : Nat) : Nat :=
  spec_crc8_step (spec_crc8_step (spec_crc8_step (spec_crc8_step
    (spec_crc8_step (spec_crc8_step (spec_crc8_step (spec_crc8_step (acc ^^^ b))))))))

/-- Modelled from the spec, the reference CRC-8/0x07 run from a given
accumulator over the remaining input bytes. -/
def spec_crc8_go : Nat → List Nat → Nat
  | acc, [] => acc
  | acc, b :: rest => spec_crc8_go (spec_crc8_byte acc b) rest

/-- Modelled from the spec, the reference bit-serial CRC-8/0x07 of a byte
sequence: accumulator starts at 0. -/
def spec_crc8 (data : List Nat) : Nat := spec_crc8_go 0 data

/-- Inverse of `crc8_round` on bytes, used to establish that a CRC round
is injective on 8-bit values. -/
def crc8_round_inv (c : Nat) : Nat :=
  if c % 2 = 1 then ((c ^^^ 0x07) % 256 + 256) / 2 else c / 2

lemma crc8_round_facts :
    ∀ c < 256, crc8_round c < 256 ∧ crc8_round_inv (crc8_round c) = c := by
  decide

lemma crc8_round_lt {c : Nat} (h : c < 256) : crc8_round c < 256 :=
  (crc8_round_facts c h).1

lemma crc8_round_inj {a b : Nat} (ha : a < 256) (hb : b < 256)
    (h : crc8_round a = crc8_round b) : a = b := by
  have h1 := (crc8_round_facts a ha).2
  have h2 := (crc8_round_facts b hb).2
  rw [h] at h1
  rw [h1] at h2
  exact h2

lemma crc8_rounds_lt : ∀ (n : Nat) {c : Nat}, c < 256 → crc8_rounds n c < 256 := by
  intro n
  induction n with
  | zero => intro c hc; exact hc
  | succ m ih => intro c hc; exact ih (crc8_round_lt hc)

lemma crc8_rounds_inj : ∀ (n : Nat) {a b : Nat}, a < 256 → b < 256 →
    crc8_rounds n a = crc8_rounds n b → a = b := by
  intro n
  induction n with
  | zero => intro a b _ _ h; exact h
  | succ m ih =>
    intro a b ha hb h
    exact crc8_round_inj ha hb (ih (crc8_round_lt ha) (crc8_round_lt hb) h)

lemma xor_lt_256 {a b : Nat} (ha : a < 256) (hb : b < 256) : a ^^^ b < 256 := by
  have h : (256 : Nat) = 2 ^ 8 := by norm_num
  rw [h] at ha hb ⊢
  exact Nat.xor_lt_two_pow ha hb

lemma crc8_update_lt {c b : Nat} (hc : c < 256) (hb : b < 256) :
    crc8_update c b < 256 :=
  crc8_rounds_lt 8 (xor_lt_256 hc hb)

lemma xor_right_cancel_inj {a1 a2 b : Nat} (h : a1 ^^^ b = a2 ^^^ b) : a1 = a2 := by
  have h2 : (a1 ^^^ b) ^^^ b = (a2 ^^^ b) ^^^ b := by rw [h]
  simpa [Nat.xor_assoc] using h2

lemma crc8_update_inj_left {a1 a2 b : Nat} (h1 : a1 < 256) (h2 : a2 < 256)
    (hb : b < 256) (h : crc8_update a1 b = crc8_update a2 b) : a1 = a2 :=
  xor_right_cancel_inj (crc8_rounds_inj 8 (xor_lt_256 h1 hb) (xor_lt_256 h2 hb) h)

lemma xor_left_cancel_inj {a b1 b2 : Nat} (h : a ^^^ b1 = a ^^^ b2) : b1 = b2 := by
  have h2 : a ^^^ (a ^^^ b1) = a ^^^ (a ^^^ b2) := by rw [h]
  simpa [← Nat.xor_assoc] using h2

lemma crc8_update_inj_right {a b1 b2 : Nat} (ha : a < 256) (h1 : b1 < 256)
    (h2 : b2 < 256) (h : crc8_update a b1 = crc8_update a b2) : b1 = b2 :=
  xor_left_cancel_inj (crc8_rounds_inj 8 (xor_lt_256 ha h1) (xor_lt_256 ha h2) h)

lemma drop_two_set (l : List Nat) (j w : Nat) :
    (l.set (j + 2) w).drop 2 = (l.drop 2).set j w := by
  match l with
  | [] => rfl
  | [a] => rfl
  | a :: b :: t => rfl

lemma foldl_crc8_ne : ∀ (l : List Nat), (∀ x ∈ l, x < 256) →
    ∀ {a b : Nat}, a < 256 → b < 256 → a ≠ b →
    l.foldl crc8_update a ≠ l.foldl crc8_update b := by
  intro l
  induction l with
  | nil => intro _ a b _ _ hne; simpa using hne
  | cons x xs ih =>
    intro hl a b ha hb hne
    have hx : x < 256 := hl x (List.mem_cons_self x xs)
    have hxs : ∀ y ∈ xs, y < 256 := fun y hy => hl y (List.mem_cons_of_mem x hy)
    simp only [List.foldl_cons]
    exact ih hxs (crc8_update_lt ha hx) (crc8_update_lt hb hx)
      (fun h => hne (crc8_update_inj_left ha hb hx h))

lemma foldl_crc8_set_ne : ∀ (p : List Nat) (i : Nat) {acc v w : Nat},
    (∀ x ∈ p, x < 256) → acc < 256 → p.get? i = some v → w < 256 → w ≠ v →
    (p.set i w).foldl crc8_update acc ≠ p.foldl crc8_update acc := by
  intro p
  induction p with
  | nil => intro i acc v w _ _ hv _ _; simp [List.get?] at hv
  | cons x xs ih =>
    intro i acc v w hp hacc hv hw hne
    have hx : x < 256 := hp x (List.mem_cons_self x xs)
    have hxs : ∀ y ∈ xs, y < 256 := fun y hy => hp y (List.mem_cons_of_mem x hy)
    cases i with
    | zero =>
      have hxv : x = v := by simpa using hv
      show (w :: xs).foldl crc8_update acc ≠ (x :: xs).foldl crc8_update acc
      simp only [List.foldl_cons]
      exact foldl_crc8_ne xs hxs (crc8_update_lt hacc hw) (crc8_update_lt hacc hx)
        (fun h => hne (by rw [crc8_update_inj_right hacc hw hx h, hxv]))
    | succ j =>
      have hv2 : xs.get? j = some v := by simpa using hv
      show (x :: xs.set j w).foldl crc8_update acc ≠ (x :: xs).foldl crc8_update acc
      simp only [List.foldl_cons]
      exact ih j hxs (crc8_update_lt hacc hx) hv2 hw hne

lemma calc_crc8_set_ne {p : List Nat} {i v w : Nat} (hp : ∀ x ∈ p, x < 256)
    (hv : p.get? i = some v) (hw : w < 256) (hne : w ≠ v) :
    calc_crc8 (p.set i w) ≠ calc_crc8 p :=
  foldl_crc8_set_ne p i hp (by norm_num) hv hw hne

lemma crc8_rounds8_eq_spec8 : ∀ c < 256, crc8_rounds 8 c =
    spec_crc8_step (spec_crc8_step (spec_crc8_step (spec_crc8_step
      (spec_crc8_step (spec_crc8_step (spec_crc8_step (spec_crc8_step c))))))) := by
  decide

lemma crc8_update_eq_spec_byte {acc b : Nat} (ha : acc < 256) (hb : b < 256) :
    crc8_update acc b = spec_crc8_byte acc b :=
  crc8_rounds8_eq_spec8 (acc ^^^ b) (xor_lt_256 ha hb)

lemma foldl_eq_spec_go : ∀ (data : List Nat), (∀ x ∈ data, x < 256) →
    ∀ {acc : Nat}, acc < 256 → data.foldl crc8_update acc = spec_crc8_go acc data := by
  intro data
  induction data with
  | nil => intro _ acc _; rfl
  | cons x xs ih =>
    intro h acc hacc
    have hx : x < 256 := h x (List.mem_cons_self x xs)
    have hxs : ∀ y ∈ xs, y < 256 := fun y hy => h y (List.mem_cons_of_mem x hy)
    simp only [List.foldl_cons, spec_crc8_go]
    calc xs.foldl crc8_update (crc8_update acc x)
        = spec_crc8_go (crc8_update acc x) xs := ih hxs (crc8_update_lt hacc hx)
      _ = spec_crc8_go (spec_crc8_byte acc x) xs := by
          rw [crc8_update_eq_spec_byte hacc hx]

/-- C2: `calc_crc8` coincides with the reference bit-serial CRC-8/0x07
algorithm modelled from the spec (it is a pure function, hence
deterministic), and the CRC of the empty sequence is 0x00. -/
theorem calc_crc8_matches_reference (data : List Nat) (h : ∀ b ∈ data, b < 256) :
    calc_crc8 data = spec_crc8 data ∧ calc_crc8 [] = 0 :=
  ⟨foldl_eq_spec_go data h (by norm_num), rfl⟩

/-- Witness for C2 at the concrete input [0x48, 0x69]. -/
theorem calc_crc8_matches_reference_witness :
    (∀ b ∈ [0x48, 0x69], b < 256) ∧
      (calc_crc8 [0x48, 0x69] = spec_crc8 [0x48, 0x69] ∧ calc_crc8 [] = 0) :=
  ⟨by decide, calc_crc8_matches_reference [0x48, 0x69] (by decide)⟩

lemma framing_nack_aux (span : List Nat) (b0 bl : Nat)
    (h0 : span.get? 0 = some b0) (hl : span.get? (span.length - 1) = some bl)
    (hbad : b0 ≠ HEADER ∨ bl ≠ END) :
    validate span = some (NACK, []) := by
  unfold validate handle_packet
  rw [h0, hl]
  simp [hbad]

/-- C6: a span whose first byte is not HEADER (0xAA) or whose last byte
is not END (0xBB) is rejected with NACK, regardless of the remaining
content, and no diagnostic event is emitted on this path. -/
theorem validate_bad_framing_nack (span : List Nat) (b0 bl : Nat)
    (h0 : span.get? 0 = some b0) (hl : span.get? (span.length - 1) = some bl)
    (hbad : b0 ≠ HEADER ∨ bl ≠ END) :
    validate span = some (NACK, []) :=
  framing_nack_aux span b0 bl h0 hl hbad

/-- Witness for C6 at the concrete span [0x00]. -/
theorem validate_bad_framing_nack_witness :
    ([0x00] : List Nat).get? 0 = some 0x00 ∧ ((0x00 : Nat) ≠ HEADER ∨ (0x00 : Nat) ≠ END) ∧
      validate [0x00] = some (NACK, []) :=
  ⟨rfl, by decide, validate_bad_framing_nack [0x00] 0x00 0x00 rfl rfl (by decide)⟩

lemma length_mismatch_nack_aux (span : List Nat) (t : Nat)
    (h0 : span.get? 0 = some HEADER) (hl : span.get? (span.length - 1) = some END)
    (ht : span.get? 1 = some t) (hne : t ≠ span.length) :
    validate span = some (NACK, [Event.lengthMismatch t span.length]) := by
  unfold validate handle_packet
  rw [h0, hl, ht]
  have hne2 : span.length ≠ t := fun h => hne h.symm
  simp [hne2]

/-- C7: a span that passes the framing check but whose declared length
byte differs from the span's actual length is rejected with NACK, with a
diagnostic event carrying the declared and the received length. -/
theorem validate_length_mismatch_nack (span : List Nat) (t : Nat)
    (h0 : span.get? 0 = some HEADER) (hl : span.get? (span.length - 1) = some END)
    (ht : span.get? 1 = some t) (hne : t ≠ span.length) :
    validate span = some (NACK, [Event.lengthMismatch t span.length]) :=
  length_mismatch_nack_aux span t h0 hl ht hne

/-- Witness for C7 at the concrete span [0xAA, 0x05, 0xBB]. -/
theorem validate_length_mismatch_nack_witness :
    ([0xAA, 0x05, 0xBB] : List Nat).get? 0 = some HEADER ∧
      (0x05 : Nat) ≠ ([0xAA, 0x05, 0xBB] : List Nat).length ∧
      validate [0xAA, 0x05, 0xBB] =
        some (NACK, [Event.lengthMismatch 0x05 ([0xAA, 0x05, 0xBB] : List Nat).length]) :=
  ⟨rfl, by decide,
    validate_length_mismatch_nack [0xAA, 0x05, 0xBB] 0x05 rfl rfl rfl (by decide)⟩

/-- C4: contrary to the claim, the code has no minimum-length guard: on
the 3-byte span [0xAA, 0x03, 0xBB] (which passes the framing and length
checks) the validator does not return NACK; it wraps the payload length
to 255 and reads index 257, outside the span, modelled as `none`. -/
theorem validate_short_span_out_of_bounds :
    ([0xAA, 0x03, 0xBB] : List Nat).length < 4 ∧ validate [0xAA, 0x03, 0xBB] = none := by
  decide

/-- C5: contrary to the claim, a span whose declared-length byte is 3 (< 4)
is not rejected before the subtraction: `payload_len` wraps to 255 under
the uint8_t subtraction 3 - 4 and the code goes on to index with it. -/
theorem validate_underflow_reaches_indexing :
    payload_len_of 0x03 = 255 ∧ (validate [0xAA, 0x03, 0xBB]).isSome = false := by
  decide

/-- C3: a single received byte equal to HANDSHAKE_REQ (0xB1) is answered
with HANDSHAKE_RESP (0x55) by the handshake branch, which is checked
before the validator (the validator itself would have produced NACK on
that byte); any other single byte goes through `handle_packet` and is
answered with NACK. -/
theorem session_single_byte (buffer : List Nat) (b : Nat) (hb : buffer.get? 0 = some b) :
    (b = HANDSHAKE_REQ → session_step buffer 1 = some ([HANDSHAKE_RESP], []) ∧
      handle_packet buffer 1 = some (NACK, [])) ∧
    (b ≠ HANDSHAKE_REQ → session_step buffer 1 = some ([NACK], [])) := by
  have hpk : handle_packet buffer 1 = some (NACK, []) := by
    unfold handle_packet
    have h11 : (1 : Nat) - 1 = 0 := rfl
    rw [h11, hb]
    have hbad : b ≠ HEADER ∨ b ≠ END := by
      rcases eq_or_ne b HEADER with h | h
      · right; rw [h]; decide
      · left; exact h
    simp [hbad]
  constructor
  · intro hreq
    refine ⟨?_, hpk⟩
    unfold session_step
    rw [hb, hreq]
    simp
  · intro hreq
    unfold session_step
    have hcond : ¬(1 = 1 ∧ buffer.get? 0 = some HANDSHAKE_REQ) := by
      rintro ⟨-, h2⟩
      rw [hb] at h2
      exact hreq (by injection h2)
    rw [if_neg hcond, hpk]
    rfl

/-- Witness for C3 at the concrete one-byte reads [0xB1] and [0x01]. -/
theorem session_single_byte_witness :
    (session_step [0xB1] 1 = some ([HANDSHAKE_RESP], []) ∧
      handle_packet [0xB1] 1 = some (NACK, [])) ∧
      session_step [0x01] 1 = some ([NACK], []) :=
  ⟨(session_single_byte [0xB1] 0xB1 rfl).1 rfl,
    (session_single_byte [0x01] 0x01 rfl).2 (by decide)⟩

lemma validate_mk (p : List Nat) (c : Nat) (hlen : p.length + 4 ≤ 255) :
    validate (HEADER :: (p.length + 4) :: (p ++ [c, END])) =
      if c = calc_crc8 p then some (ACK, [Event.validPacket p])
      else some (NACK, [Event.crcMismatch c (calc_crc8 p)]) := by
  have hslen : (HEADER :: (p.length + 4) :: (p ++ [c, END])).length = p.length + 4 := by
    simp [List.length_append]
  have hpl : payload_len_of (p.length + 4) = p.length := by
    unfold payload_len_of
    omega
  have h0 : (HEADER :: (p.length + 4) :: (p ++ [c, END])).get? 0 = some HEADER := rfl
  have ht : (HEADER :: (p.length + 4) :: (p ++ [c, END])).get? 1 = some (p.length + 4) := rfl
  have hl : (HEADER :: (p.length + 4) :: (p ++ [c, END])).get? (p.length + 3) = some END := by
    have e1 : p.length + 3 = (p.length + 1) + 1 + 1 := by omega
    rw [e1]
    simp only [List.get?_cons_succ]
    rw [List.get?_append_right (by omega)]
    have e2 : p.length + 1 - p.length = 1 := by omega
    rw [e2]
    rfl
  have hcrc : (HEADER :: (p.length + 4) :: (p ++ [c, END])).get?
      (2 + payload_len_of (p.length + 4)) = some c := by
    rw [hpl]
    have e1 : 2 + p.length = p.length + 1 + 1 := by omega
    rw [e1]
    simp only [List.get?_cons_succ]
    rw [List.get?_append_right (by omega)]
    have e2 : p.length - p.length = 0 := by omega
    rw [e2]
    rfl
  have hpay : packet_payload (HEADER :: (p.length + 4) :: (p ++ [c, END])) (p.length + 4) = p := by
    unfold packet_payload
    rw [hpl]
    show (p ++ [c, END]).take p.length = p
    exact List.take_left p [c, END]
  unfold validate handle_packet
  rw [hslen]
  have e3 : p.length + 4 - 1 = p.length + 3 := by omega
  rw [e3]
  simp only [h0, hl, ht, hcrc, hpay]
  simp

/-- C1: round-trip.  For every payload `p` (bytes, and small enough that
`4 + len(p)` fits in the declared-length byte), validating the
constructed packet `[0xAA, 4+len(p), p..., calc_crc8(p), 0xBB]` yields
ACK, with the informational event carrying the payload. -/
theorem roundtrip_ack (p : List Nat) (hp : ∀ b ∈ p, b < 256)
    (hlen : 4 + p.length ≤ 255) :
    validate (mkPacket p) = some (ACK, [Event.validPacket p]) := by
  unfold mkPacket
  have e : 4 + p.length = p.length + 4 := by omega
  rw [e, validate_mk p (calc_crc8 p) (by omega)]
  simp

/-- Witness for C1 at the payload "Hi" = [0x48, 0x69] from the spec. -/
theorem roundtrip_ack_witness :
    (∀ b ∈ [0x48, 0x69], b < 256) ∧ 4 + ([0x48, 0x69] : List Nat).length ≤ 255 ∧
      validate (mkPacket [0x48, 0x69]) = some (ACK, [Event.validPacket [0x48, 0x69]]) :=
  ⟨by decide, by decide, roundtrip_ack [0x48, 0x69] (by decide) (by decide)⟩

/-- C10: a span longer than 255 bytes always gets NACK, because the
single declared-length byte (< 256) can never equal the actual length;
hence ACK is only reachable for spans of at most 255 bytes. -/
theorem validate_oversize_nack (span : List Nat) (hbytes : ∀ b ∈ span, b < 256) :
    (255 < span.length → (validate span).map Prod.fst = some NACK) ∧
    (∀ r ev, validate span = some (r, ev) → r = ACK → span.length ≤ 255) := by
  have main : 255 < span.length → (validate span).map Prod.fst = some NACK := by
    intro hlong
    obtain ⟨b0, h0⟩ : ∃ b0, span.get? 0 = some b0 :=
      ⟨_, List.get?_eq_get (by omega)⟩
    obtain ⟨bl, hl⟩ : ∃ bl, span.get? (span.length - 1) = some bl :=
      ⟨_, List.get?_eq_get (by omega)⟩
    obtain ⟨t, ht⟩ : ∃ t, span.get? 1 = some t :=
      ⟨_, List.get?_eq_get (by omega)⟩
    by_cases hfr : b0 ≠ HEADER ∨ bl ≠ END
    · rw [framing_nack_aux span b0 bl h0 hl hfr]
      rfl
    · push_neg at hfr
      obtain ⟨hb0, hbl⟩ := hfr
      have htlt : t < 256 := hbytes t (List.get?_mem ht)
      have hne : t ≠ span.length := by omega
      rw [length_mismatch_nack_aux span t (hb0 ▸ h0) (hbl ▸ hl) ht hne]
      rfl
  refine ⟨main, ?_⟩
  intro r ev hv hr
  by_contra hgt
  push_neg at hgt
  have h1 := main hgt
  rw [hv] at h1
  simp at h1
  rw [hr] at h1
  exact absurd h1 (by decide)

/-- Witness for C10 at the concrete 256-byte all-zero span. -/
theorem validate_oversize_nack_witness :
    (validate (List.replicate 256 0)).map Prod.fst = some NACK :=
  (validate_oversize_nack (List.replicate 256 0) (by simp)).1 (by simp)

lemma get?_some_lt {l : List Nat} {n a : Nat} (h : l.get? n = some a) : n < l.length := by
  by_contra hc
  push_neg at hc
  rw [List.get?_eq_none.mpr hc] at h
  exact absurd h (by simp)

lemma payload_len_lt (t : Nat) : payload_len_of t < 256 :=
  Nat.mod_lt _ (by norm_num)

lemma ack_inversion (span : List Nat) (ev : List Event)
    (h : validate span = some (ACK, ev)) :
    ∃ cr, span.get? 0 = some HEADER ∧ span.get? (span.length - 1) = some END ∧
      span.get? 1 = some span.length ∧
      span.get? (2 + payload_len_of span.length) = some cr ∧
      cr = calc_crc8 (packet_payload span span.length) := by
  unfold validate handle_packet at h
  split at h
  case _ b0 bl heq0 heql =>
    split at h
    · simp [NACK, ACK] at h
    case _ hfr =>
      push_neg at hfr
      obtain ⟨h1, h2⟩ := hfr
      split at h
      case _ t heqt =>
        split at h
        · simp [NACK, ACK] at h
        case _ hlen =>
          push_neg at hlen
          subst hlen
          split at h
          case _ cr heqc =>
            split at h
            case _ hcrc =>
              exact ⟨cr, h1 ▸ heq0, h2 ▸ heql, heqt, heqc, hcrc⟩
            · simp [NACK, ACK] at h
          · simp at h
      · simp at h
  · simp at h

/-- C8: flipping any single bit of any payload byte of a span the
validator accepts (without recomputing the CRC byte) produces a span the
validator rejects with NACK: CRC-8/0x07 detects every single-bit payload
error. -/
theorem single_bit_flip_nack (span : List Nat) (hbytes : ∀ b ∈ span, b < 256)
    (ev : List Event) (hack : validate span = some (ACK, ev))
    (j k v : Nat) (hj : 2 ≤ j) (hjr : j + 2 < span.length) (hk : k < 8)
    (hv : span.get? j = some v) :
    (validate (span.set j (v ^^^ 2 ^ k))).map Prod.fst = some NACK := by
  obtain ⟨i, rfl⟩ : ∃ i, j = i + 2 := ⟨j - 2, by omega⟩
  obtain ⟨cr, h0, hl, ht, hcr, hcrc⟩ := ack_inversion span ev hack
  have htlt : span.length < 256 := hbytes span.length (List.get?_mem ht)
  have hcrlt : 2 + payload_len_of span.length < span.length := get?_some_lt hcr
  have h4le : 4 ≤ span.length := by
    by_contra hc
    push_neg at hc
    unfold payload_len_of at hcrlt
    omega
  have hpl_eq : payload_len_of span.length = span.length - 4 := by
    unfold payload_len_of
    omega
  have hvlt : v < 256 := hbytes v (List.get?_mem hv)
  have hklt : (2 : Nat) ^ k < 256 := by
    calc (2 : Nat) ^ k ≤ 2 ^ 7 := Nat.pow_le_pow_right (by norm_num) (by omega)
      _ < 256 := by norm_num
  have hwlt : v ^^^ 2 ^ k < 256 := xor_lt_256 hvlt hklt
  have hwne : v ^^^ 2 ^ k ≠ v := by
    intro he
    have h2 : (2 : Nat) ^ k = 0 := by
      have he2 : v ^^^ 2 ^ k = v ^^^ 0 := by rw [Nat.xor_zero]; exact he
      exact xor_left_cancel_inj he2
    have h3 : 0 < (2 : Nat) ^ k := Nat.pos_pow_of_pos k (by norm_num)
    omega
  have hlen2 : (span.set (i + 2) (v ^^^ 2 ^ k)).length = span.length := by simp
  have h02 : (span.set (i + 2) (v ^^^ 2 ^ k)).get? 0 = some HEADER := by
    rw [List.get?_set_ne _ span (show i + 2 ≠ 0 by omega)]
    exact h0
  have hl2 : (span.set (i + 2) (v ^^^ 2 ^ k)).get? (span.length - 1) = some END := by
    rw [List.get?_set_ne _ span (show i + 2 ≠ span.length - 1 by omega)]
    exact hl
  have ht2 : (span.set (i + 2) (v ^^^ 2 ^ k)).get? 1 = some span.length := by
    rw [List.get?_set_ne _ span (show i + 2 ≠ 1 by omega)]
    exact ht
  have hcr2 : (span.set (i + 2) (v ^^^ 2 ^ k)).get? (2 + payload_len_of span.length)
      = some cr := by
    rw [List.get?_set_ne _ span
      (show i + 2 ≠ 2 + payload_len_of span.length by rw [hpl_eq]; omega)]
    exact hcr
  have hpay2 : packet_payload (span.set (i + 2) (v ^^^ 2 ^ k)) span.length =
      (packet_payload span span.length).set i (v ^^^ 2 ^ k) := by
    unfold packet_payload
    rw [drop_two_set]
    exact List.set_take
  have hpv : (packet_payload span span.length).get? i = some v := by
    unfold packet_payload
    rw [List.get?_take (show i < payload_len_of span.length by rw [hpl_eq]; omega)]
    rw [List.get?_drop]
    have e2 : 2 + i = i + 2 := by omega
    rw [e2]
    exact hv
  have hpb : ∀ x ∈ packet_payload span span.length, x < 256 := by
    intro x hx
    unfold packet_payload at hx
    exact hbytes x (List.mem_of_mem_drop (List.mem_of_mem_take hx))
  have hcne : calc_crc8 ((packet_payload span span.length).set i (v ^^^ 2 ^ k)) ≠
      calc_crc8 (packet_payload span span.length) :=
    calc_crc8_set_ne hpb hpv hwlt hwne
  have hfinal : cr ≠ calc_crc8 ((packet_payload span span.length).set i (v ^^^ 2 ^ k)) := by
    rw [hcrc]
    intro hh
    exact hcne hh.symm
  unfold validate handle_packet
  rw [hlen2]
  simp only [h02, hl2, ht2, hcr2, hpay2]
  simp [hfinal]

/-- Witness for C8: flipping bit 0 of the payload byte of the valid
packet [0xAA, 0x05, 0x48, crc8("H"), 0xBB] yields NACK. -/
theorem single_bit_flip_nack_witness :
    (validate (([0xAA, 0x05, 0x48, calc_crc8 [0x48], 0xBB] : List Nat).set 2
      (0x48 ^^^ 2 ^ 0))).map Prod.fst = some NACK :=
  single_bit_flip_nack [0xAA, 0x05, 0x48, calc_crc8 [0x48], 0xBB] (by decide)
    [Event.validPacket [0x48]] (by decide) 2 0 0x48 (by decide) (by decide)
    (by decide) (by decide)

lemma handle_packet_total (buffer : List Nat) (len : Nat) (h1 : 0 < len)
    (h2 : len ≤ buffer.length) (h3 : BUF_SIZE ≤ buffer.length) :
    ∃ r ev, handle_packet buffer len = some (r, ev) ∧ (r = ACK ∨ r = NACK) := by
  unfold BUF_SIZE at h3
  obtain ⟨b0, hb0⟩ : ∃ x, buffer.get? 0 = some x :=
    ⟨_, List.get?_eq_get (by omega)⟩
  obtain ⟨bl, hbl⟩ : ∃ x, buffer.get? (len - 1) = some x :=
    ⟨_, List.get?_eq_get (by omega)⟩
  obtain ⟨t, ht⟩ : ∃ x, buffer.get? 1 = some x :=
    ⟨_, List.get?_eq_get (by omega)⟩
  obtain ⟨cr, hcr⟩ : ∃ x, buffer.get? (2 + payload_len_of t) = some x :=
    ⟨_, List.get?_eq_get (by have := payload_len_lt t; omega)⟩
  unfold handle_packet
  simp only [hb0, hbl, ht, hcr]
  by_cases hfr : b0 ≠ HEADER ∨ bl ≠ END
  · rw [if_pos hfr]
    exact ⟨NACK, [], rfl, Or.inr rfl⟩
  · rw [if_neg hfr]
    by_cases hlen : len ≠ t
    · rw [if_pos hlen]
      exact ⟨NACK, _, rfl, Or.inr rfl⟩
    · rw [if_neg hlen]
      by_cases hcrc : cr = calc_crc8 (packet_payload buffer t)
      · rw [if_pos hcrc]
        exact ⟨ACK, _, rfl, Or.inl rfl⟩
      · rw [if_neg hcrc]
        exact ⟨NACK, _, rfl, Or.inr rfl⟩

/-- C9: on every non-empty read (0 < len ≤ BUF_SIZE bytes into the
1024-byte receive buffer) the session writes exactly one response byte:
HANDSHAKE_RESP on the handshake path, otherwise the validator's single
ACK or NACK byte. -/
theorem session_one_response (buffer : List Nat) (len : Nat) (h1 : 0 < len)
    (h2 : len ≤ buffer.length) (h3 : BUF_SIZE ≤ buffer.length) :
    ∃ w ev, session_step buffer len = some (w, ev) ∧
      (w = [HANDSHAKE_RESP] ∨ w = [ACK] ∨ w = [NACK]) := by
  unfold session_step
  by_cases hh : len = 1 ∧ buffer.get? 0 = some HANDSHAKE_REQ
  · rw [if_pos hh]
    exact ⟨[HANDSHAKE_RESP], [], rfl, Or.inl rfl⟩
  · rw [if_neg hh]
    obtain ⟨r, ev, hr, hcase⟩ := handle_packet_total buffer len h1 h2 h3
    rw [hr]
    refine ⟨[r], ev, rfl, ?_⟩
    rcases hcase with h | h
    · right; left; rw [h]
    · right; right; rw [h]

/-- Witness for C9 at a concrete 1024-byte all-zero buffer with a 1-byte
read. -/
theorem session_one_response_witness :
    ∃ w ev, session_step (List.replicate 1024 0) 1 = some (w, ev) ∧
      (w = [HANDSHAKE_RESP] ∨ w = [ACK] ∨ w = [NACK]) :=
  session_one_response (List.replicate 1024 0) 1 (by decide) (by simp)
    (by simp [BUF_SIZE])
